import Mathlib

/-!
Shallow embedding of the MCP starter scripts
(`mcp_fastapi_starter.py`, `mcp_fastapi_starter_claude.py`, and the two
variants concatenated in `src/unnamed/part_000`) together with proofs about
the task lifecycle, context aggregation, caching, pagination and publish
pipeline.

External collaborators (the LLM backend, HTTP library, prompt rendering,
`hashlib.md5`, git subprocesses, the OS filesystem) are modelled as
parameters: each fallible call is an `Except String` value describing the
outcome the environment produces (exceptions carry their message).
Python dictionaries are modelled as association lists where assignment
conses a new binding in front and lookup takes the first binding.
-/

namespace MCP

/-- Python dict assignment `m[k] = v`: the new binding shadows older ones. -/
def dinsert (m : List (String × String)) (k v : String) : List (String × String) :=
  (k, v) :: m

/-- Python dict lookup `m.get(k)`. -/
def dget (m : List (String × String)) (k : String) : Option String :=
  m.lookup k

theorem dget_dinsert (m : List (String × String)) (k v k' : String) :
    dget (dinsert m k v) k' = if k' = k then some v else dget m k' := by
  by_cases h : k' = k
  · simp [dget, dinsert, List.lookup, h]
  · have hb : (k' == k) = false := by simp [h]
    simp [dget, dinsert, List.lookup, hb, h]

theorem dget_dinsert_self (m : List (String × String)) (k v : String) :
    dget (dinsert m k v) k = some v := by
  simp [dget_dinsert]

theorem dget_dinsert_ne (m : List (String × String)) (k v k' : String)
    (h : k' ≠ k) : dget (dinsert m k v) k' = dget m k' := by
  simp [dget_dinsert, h]

/-- Python string slicing `s[:n]` (first `n` characters). -/
def strTake (s : String) (n : Nat) : String :=
  String.mk (s.data.take n)

/-- Python `s.startswith(p)`, used only to state properties of status strings. -/
def strStartsWith (s p : String) : Bool :=
  p.data.isPrefixOf s.data

/-- Number of occurrences of a character in a string (used in statements). -/
def countChar (s : String) (c : Char) : Nat :=
  s.data.count c

/-- Whether `needle` occurs as a contiguous substring of `hay`
(used only to state properties about aggregated output). -/
def occursIn (needle hay : List Char) : Bool :=
  (List.range (hay.length + 1)).any fun i => (hay.drop i).take needle.length == needle

/--
One caller-supplied auxiliary context file as `load_context` sees it:
`exists_` is the outcome of `os.path.exists(file)`, and `read` is the
outcome of `open(file).read()` (`.error e` when opening or reading raises). -/
structure CtxFile where
  path : String
  exists_ : Bool
  read : Except String String

/--
`load_context(files)` (identical in all variants): skips missing files and
concatenates `"\n# From {path}:\n" + content + "\n"` for the rest; a read
error propagates out of the loop as an exception. -/
def load_context (files : List CtxFile) : Except String String :=
  files.foldlM
    (fun context_data file =>
      if file.exists_ then
        match file.read with
        | .error e => .error e
        | .ok content =>
            .ok (context_data ++ "\n# From " ++ file.path ++ ":\n" ++ content ++ "\n")
      else
        .ok context_data)
    ""

/--
The fallible body shared by the Ollama-style `run_generation` variants up to
the generator call: `context = load_context(...)` followed by
`runnable.invoke({context, task})`.  `invoke` is the external
prompt-rendering + LLM collaborator; its argument order is (context, task). -/
def gen_body (invoke : String → String → Except String String)
    (files : List CtxFile) (task : String) : Except String String :=
  match load_context files with
  | .error e => .error e
  | .ok context => invoke context task

namespace Ollama

/-- The two module-level dicts of `mcp_fastapi_starter.py`. -/
structure St where
  task_status : List (String × String)
  task_result : List (String × String)

/--
`run_generation(req, task_id)` of `mcp_fastapi_starter.py` (lines 90-110):
everything is wrapped in `try`; a truthy (non-empty) response marks the task
`completed` and stores the result, an empty response marks it
`failed: empty response`, and any exception `e` marks it `failed: {e}`. -/
def run_generation (invoke : String → String → Except String String)
    (files : List CtxFile) (task : String) (s : St) (task_id : String) : St :=
  match gen_body invoke files task with
  | .ok response =>
      if response = "" then
        { s with task_status := dinsert s.task_status task_id "failed: empty response" }
      else
        { task_status := dinsert s.task_status task_id "completed",
          task_result := dinsert s.task_result task_id response }
  | .error e =>
      { s with task_status := dinsert s.task_status task_id ("failed: " ++ e) }

/--
`get_status(task_id)` of `mcp_fastapi_starter.py` (lines 131-136): reads both
dicts under the lock and builds the response; it writes nothing, which the
embedding makes explicit by returning the (unchanged) state. -/
def get_status (s : St) (task_id : String) : St × String × Option String :=
  (s, (dget s.task_status task_id).getD "unknown", dget s.task_result task_id)

end Ollama

/--
One file met by `os.walk`: `root` is the directory, `name` the bare file
name, `readable` whether `open`+`read` succeeds (the `except: continue`
branch skips a file whose read raises), `content` what a successful read
returns. -/
structure FsEntry where
  root : String
  name : String
  readable : Bool
  content : String

/-- Python `name.endswith(suffixes)` with a tuple argument. -/
def endsWithAny (name : String) (suffixes : List String) : Bool :=
  suffixes.any fun suffix => suffix.data.isSuffixOf name.data

namespace Claude

/-- The default `file_types` tuple of `extract_context_from_repo`. -/
def file_types : List String := [".java", ".md", ".yml"]

/--
The walk-and-concatenate loop of `extract_context_from_repo`
(`mcp_fastapi_starter_claude.py` lines 79-87), run on a cache miss: every
file whose name ends in one of `file_types` and whose read does not raise
contributes `"\n# {file}:\n" + f.read()[:3000]`; other files contribute
nothing. -/
def extract_core (entries : List FsEntry) : String :=
  entries.foldl
    (fun context e =>
      if endsWithAny e.name file_types then
        if e.readable then
          context ++ "\n# " ++ e.name ++ ":\n" ++ strTake e.content 3000
        else context
      else context)
    ""

/--
`extract_context_from_repo(repo_path)` (lines 74-90): keyed by
`hashlib.md5(repo_path.encode()).hexdigest()` — the hash is the external
collaborator `h` — it returns the cached text when the key is present and
otherwise walks the repository (`fs repo_path` is what `os.walk` yields),
stores the text under the key and returns it, threading the module-level
`context_cache` dict explicitly. -/
def extract_context_from_repo (h : String → String) (fs : String → List FsEntry)
    (cache : List (String × String)) (repo_path : String) :
    String × List (String × String) :=
  let repo_hash := h repo_path
  match dget cache repo_hash with
  | some cached => (cached, cache)
  | none =>
      let context := extract_core (fs repo_path)
      (context, dinsert cache repo_hash context)

/--
`"".join([extract_context_from_repo(p) for p in repo_paths])` of
`run_generation` line 144: sequential extraction over all discovered
repositories, threading the cache. -/
def extract_all (h : String → String) (fs : String → List FsEntry)
    (cache : List (String × String)) (paths : List String) :
    String × List (String × String) :=
  paths.foldl
    (fun acc p =>
      let r := extract_context_from_repo h fs acc.2 p
      (acc.1 ++ r.1, r.2))
    ("", cache)

/-- One repository entry of the Bitbucket listing JSON. -/
structure RepoJson where
  projectKey : String
  name : String
  cloneUrl : String
deriving DecidableEq

/--
One page of the Bitbucket listing API: its HTTP status code, its
`values` array and its optional `next` URL. -/
structure Page where
  status_code : Nat
  values : List RepoJson
  next : Option String

/--
The pagination loop of `fetch_all_bitbucket_repos`
(`mcp_fastapi_starter_claude.py` lines 51-57): follow `next` until absent,
and on a non-200 response `break` with the repositories accumulated so far.
The input list is the sequence of pages the service returns along the
`next` chain.  The second component collects every log or print message
the loop emits; the source contains no logging statement, so nothing is
ever appended to it. -/
def fetch_pages : List Page → List RepoJson × List String
  | [] => ([], [])
  | page :: rest =>
      if page.status_code ≠ 200 then
        ([], [])
      else
        match page.next with
        | none => (page.values, [])
        | some _ =>
            let r := fetch_pages rest
            (page.values ++ r.1, r.2)

/--
The filter-and-path loop of `fetch_all_bitbucket_repos` (lines 59-72): a
repository is skipped when the project filter is truthy (non-empty list)
and does not contain its project key; every kept repository yields the
destination path `os.path.join(clone_dir, name)` (cloned there when
absent — the clone side effect is not needed by any claim). -/
def select_repo_paths (project_filter : List String) (clone_dir : String)
    (repos : List RepoJson) : List String :=
  repos.foldl
    (fun paths repo =>
      if project_filter ≠ [] ∧ repo.projectKey ∉ project_filter then paths
      else paths ++ [clone_dir ++ "/" ++ repo.name])
    []

/--
`fetch_all_bitbucket_repos()` (lines 47-72): paginate, then filter and
resolve local clone paths.  The log component is the pagination loop's
(always empty) log output. -/
def fetch_all_bitbucket_repos (project_filter : List String) (clone_dir : String)
    (pages : List Page) : List String × List String :=
  let r := fetch_pages pages
  (select_repo_paths project_filter clone_dir r.1, r.2)

/-- The three module-level dicts of `mcp_fastapi_starter_claude.py`. -/
structure St where
  task_status : List (String × String)
  task_result : List (String × String)
  context_cache : List (String × String)

/--
`run_generation(req, task_id)` of `mcp_fastapi_starter_claude.py`
(lines 141-156): fetch repositories (`net` is the outcome of
`fetch_all_bitbucket_repos()`, whose network and clone calls may raise),
extract context per repository through the cache, append the auxiliary
files, call Claude (or the fixed string when `use_claude` is false), and
mark the task `completed` with the response — there is no empty-response
check in this variant.  Any exception is caught and recorded as
`failed: {e}`; cache entries written before the exception stay written
(the dict is module-level). -/
def run_generation (h : String → String) (fs : String → List FsEntry)
    (net : Except String (List String)) (files : List CtxFile)
    (use_claude : Bool) (callClaude : String → Except String String)
    (render : String → String → String) (task : String)
    (s : St) (task_id : String) : St :=
  match net with
  | .error e =>
      { s with task_status := dinsert s.task_status task_id ("failed: " ++ e) }
  | .ok repo_paths =>
      let ex := extract_all h fs s.context_cache repo_paths
      match load_context files with
      | .error e =>
          { s with
            task_status := dinsert s.task_status task_id ("failed: " ++ e),
            context_cache := ex.2 }
      | .ok aux =>
          let prompt := render (ex.1 ++ aux) task
          match (if use_claude then callClaude prompt else .ok "Claude is disabled.") with
          | .error e =>
              { s with
                task_status := dinsert s.task_status task_id ("failed: " ++ e),
                context_cache := ex.2 }
          | .ok response =>
              { task_status := dinsert s.task_status task_id "completed",
                task_result := dinsert s.task_result task_id response,
                context_cache := ex.2 }

end Claude

namespace Push

/-- The steps of `push_code` (`src/unnamed/part_000` lines 88-100), in
source order: clone into the temporary directory, create the parent
directories, write the file, `checkout -b` the branch, stage, commit,
push. -/
inductive PStep where
  | clone
  | mkdirs
  | write
  | checkout
  | stage
  | commit
  | push
deriving DecidableEq, Repr

/-- Every step of `push_code`, in execution order. -/
def allSteps : List PStep :=
  [.clone, .mkdirs, .write, .checkout, .stage, .commit, .push]

/-- The outcome the environment (git subprocess, filesystem, remote)
produces for each step of one publish attempt, `.error e` meaning the
step raises with message `e`. -/
structure PublishEnv where
  clone : Except String Unit
  mkdirs : Except String Unit
  write : Except String Unit
  checkout : Except String Unit
  stage : Except String Unit
  commit : Except String Unit
  push : Except String Unit

/-- The canonical remote repository: branch name ↦ content of the pushed
`services/{name}.java` file (the only part of a commit the script
produces). -/
structure Remote where
  branches : List (String × String)

/-- The effect on the remote of a successful push of `branch`. -/
def applyPush (r : Remote) (branch code : String) : Remote :=
  { branches := dinsert r.branches branch code }

/-- Everything observable about one `push_code` run. -/
structure PublishResult where
  outcome : Except (PStep × String) Unit
  executed : List PStep
  tmpRemoved : Bool
  remote : Remote

/--
`push_code(service_name, code)` (`src/unnamed/part_000` lines 88-100): the
whole body runs inside `with tempfile.TemporaryDirectory()`, so the
working copy is removed on every exit path; a step that raises aborts the
remaining steps and propagates its exception; only a successful `push`
touches the remote — clone, write, checkout, stage and commit act on the
ephemeral copy alone. -/
def push_code (env : PublishEnv) (branch code : String) (remote : Remote) :
    PublishResult :=
  match env.clone with
  | .error e => ⟨.error (.clone, e), [.clone], true, remote⟩
  | .ok _ =>
  match env.mkdirs with
  | .error e => ⟨.error (.mkdirs, e), [.clone, .mkdirs], true, remote⟩
  | .ok _ =>
  match env.write with
  | .error e => ⟨.error (.write, e), [.clone, .mkdirs, .write], true, remote⟩
  | .ok _ =>
  match env.checkout with
  | .error e => ⟨.error (.checkout, e), [.clone, .mkdirs, .write, .checkout], true, remote⟩
  | .ok _ =>
  match env.stage with
  | .error e =>
      ⟨.error (.stage, e), [.clone, .mkdirs, .write, .checkout, .stage], true, remote⟩
  | .ok _ =>
  match env.commit with
  | .error e =>
      ⟨.error (.commit, e), [.clone, .mkdirs, .write, .checkout, .stage, .commit], true,
        remote⟩
  | .ok _ =>
  match env.push with
  | .error e => ⟨.error (.push, e), allSteps, true, remote⟩
  | .ok _ => ⟨.ok (), allSteps, true, applyPush remote branch code⟩

/-- The single module-level status dict of the first `part_000` variant —
it has no `task_result` dict at all. -/
structure St where
  task_status : List (String × String)

/--
`run_generation(req, task_id)` of `src/unnamed/part_000` lines 102-122:
load context, invoke the generator; a truthy response is pushed via
`push_code` and the task marked `completed` (storing no result), an empty
response marks it `failed: empty response` without any publish attempt,
and any exception — from context loading, generation or any `push_code`
step — is caught and recorded as `failed: {e}`.  The returned boolean
records whether `push_code` was entered. -/
def run_generation (invoke : String → String → Except String String)
    (files : List CtxFile) (task : String) (env : PublishEnv) (branch : String)
    (remote : Remote) (s : St) (task_id : String) : St × Remote × Bool :=
  match gen_body invoke files task with
  | .ok response =>
      if response = "" then
        ({ task_status := dinsert s.task_status task_id "failed: empty response" },
          remote, false)
      else
        let pr := push_code env branch response remote
        match pr.outcome with
        | .error pe =>
            ({ task_status := dinsert s.task_status task_id ("failed: " ++ pe.2) },
              pr.remote, true)
        | .ok _ =>
            ({ task_status := dinsert s.task_status task_id "completed" },
              pr.remote, true)
  | .error e =>
      ({ task_status := dinsert s.task_status task_id ("failed: " ++ e) }, remote, false)

/--
`get_status(task_id)` of `src/unnamed/part_000` lines 137-141: reads the
status dict under the lock (an unknown id gives `"unknown"`) and returns
it; this variant reports no result.  The unchanged state is returned to
make the absence of writes explicit. -/
def get_status (s : St) (task_id : String) : St × String :=
  (s, (dget s.task_status task_id).getD "unknown")

end Push

namespace Enhanced

/-- The local working state `clone_repo_if_needed` acts on:
whether `LOCAL_REPO_PATH` exists on disk, and which branch the local copy
has checked out (none before the first clone). -/
structure LocalState where
  localExists : Bool
  checkedOut : Option String
deriving DecidableEq, Repr

/-- The git commands `clone_repo_if_needed` can issue. -/
inductive GitCmd where
  | clone
  | checkout
deriving DecidableEq, Repr

/--
`clone_repo_if_needed()` of the second `src/unnamed/part_000` variant
(lines 200-203): when no local copy exists, `git clone` (with `check=True`,
so a failure raises); afterwards — always — `git checkout BRANCH` (also
`check=True`).  `cloneRes` and `checkoutRes` are the outcomes the git
subprocesses produce; the returned list records the commands actually
issued. -/
def clone_repo_if_needed (cloneRes checkoutRes : Except String Unit)
    (branch : String) (s : LocalState) :
    Except String (LocalState × List GitCmd) :=
  if s.localExists then
    match checkoutRes with
    | .error e => .error e
    | .ok _ => .ok ({ s with checkedOut := some branch }, [.checkout])
  else
    match cloneRes with
    | .error e => .error e
    | .ok _ =>
        match checkoutRes with
        | .error e => .error e
        | .ok _ =>
            .ok ({ localExists := true, checkedOut := some branch },
              [.clone, .checkout])

end Enhanced

namespace Ollama

/--
The operations of `mcp_fastapi_starter.py` that touch the two module-level
dicts: `generate_code` registers a fresh uuid as `started` and schedules
`run_generation` (carrying the environment outcomes the run will meet);
`get_status` only reads. -/
inductive Event where
  | submit (id : String)
  | run (id : String) (invoke : String → String → Except String String)
      (files : List CtxFile) (task : String)
  | query (id : String)

/-- Effect of one operation on the registry state. -/
def step (s : St) : Event → St
  | .submit id => { s with task_status := dinsert s.task_status id "started" }
  | .run id invoke files task => run_generation invoke files task s id
  | .query _ => s

/-- The registry state after a sequence of operations. -/
def runTrace (s : St) (t : List Event) : St :=
  t.foldl step s

/--
Traces the FastAPI app can actually produce: `submit` always registers a
fresh uuid (present in neither dict), and `run_generation` fires exactly
once per submitted id, while its status is still `started`. -/
def wf (s : St) : List Event → Bool
  | [] => true
  | .submit id :: rest =>
      (dget s.task_status id).isNone && (dget s.task_result id).isNone &&
        wf (step s (.submit id)) rest
  | .run id invoke files task :: rest =>
      (dget s.task_status id == some "started") &&
        wf (step s (.run id invoke files task)) rest
  | .query id :: rest => wf (step s (.query id)) rest

/-- Both dicts start empty at process start. -/
def emptySt : St := ⟨[], []⟩

/-- The invariant of claim C10: `task_result` holds an entry only for
tasks whose `task_status` entry is `"completed"`. -/
def ResultImpliesCompleted (s : St) : Prop :=
  ∀ id r, dget s.task_result id = some r → dget s.task_status id = some "completed"

end Ollama

/-!
## Claim theorems
-/

/--
C3: for every task id, including ids never created by submit, `get_status`
returns an answer rather than raising: an unrecognized id (present in
neither dict) yields status `"unknown"` with no result, and in both the
Ollama starter and the push variant the query leaves the registry exactly
as it found it. -/
theorem C3_get_status_total (s : Ollama.St) (s2 : Push.St) (id : String)
    (h1 : dget s.task_status id = none) (h2 : dget s.task_result id = none)
    (h3 : dget s2.task_status id = none) :
    Ollama.get_status s id = (s, "unknown", none) ∧
      Push.get_status s2 id = (s2, "unknown") ∧
      (∀ (s' : Ollama.St) (i : String), (Ollama.get_status s' i).1 = s') ∧
      (∀ (s' : Push.St) (i : String), (Push.get_status s' i).1 = s') := by
  refine ⟨?_, ?_, fun s' i => rfl, fun s' i => rfl⟩
  · simp [Ollama.get_status, h1, h2]
  · simp [Push.get_status, h3]

/-- Witness for C3 at a concrete registry and an id never submitted. -/
theorem C3_get_status_total_witness :
    Ollama.get_status ⟨[("a", "started")], []⟩ "zzz" =
      (⟨[("a", "started")], []⟩, "unknown", none) :=
  (C3_get_status_total ⟨[("a", "started")], []⟩ ⟨[("a", "started")]⟩ "zzz"
    (by decide) (by decide) (by decide)).1

/--
C9: `clone_repo_if_needed` is idempotent: the first call with no local copy
performs a full clone and then checks out the configured branch; every call
that finds the local copy present issues only the checkout — the clone
outcome is not even consulted — and after every successful call the
configured branch is the one checked out. -/
theorem C9_ensure_local_idempotent (branch : String) (s : Enhanced.LocalState)
    (hno : s.localExists = false) :
    Enhanced.clone_repo_if_needed (.ok ()) (.ok ()) branch s =
        .ok (⟨true, some branch⟩, [.clone, .checkout]) ∧
      (∀ s' : Enhanced.LocalState, s'.localExists = true →
        ∀ cl : Except String Unit,
          Enhanced.clone_repo_if_needed cl (.ok ()) branch s' =
            .ok ({ s' with checkedOut := some branch }, [.checkout])) ∧
      (∀ (cl ck : Except String Unit) (s' : Enhanced.LocalState)
          (r : Enhanced.LocalState × List Enhanced.GitCmd),
        Enhanced.clone_repo_if_needed cl ck branch s' = .ok r →
          r.1.checkedOut = some branch) := by
  refine ⟨?_, ?_, ?_⟩
  · simp [Enhanced.clone_repo_if_needed, hno]
  · intro s' h cl
    simp [Enhanced.clone_repo_if_needed, h]
  · intro cl ck s' r h
    unfold Enhanced.clone_repo_if_needed at h
    split at h
    · cases ck with
      | error e => simp at h
      | ok u => simp at h; rw [← h]
    · cases cl with
      | error e => simp at h
      | ok u =>
        cases ck with
        | error e => simp at h
        | ok u' => simp at h; rw [← h]

/-- Witness for C9: a fresh state is cloned and checked out, and a second
call on the resulting state checks out without cloning. -/
theorem C9_ensure_local_idempotent_witness :
    Enhanced.clone_repo_if_needed (.ok ()) (.ok ()) "master" ⟨false, none⟩ =
        .ok (⟨true, some "master"⟩, [.clone, .checkout]) ∧
      Enhanced.clone_repo_if_needed (.error "network down") (.ok ()) "master"
          ⟨true, some "master"⟩ =
        .ok (⟨true, some "master"⟩, [.checkout]) := by
  have h := C9_ensure_local_idempotent "master" ⟨false, none⟩ rfl
  exact ⟨h.1, h.2.1 ⟨true, some "master"⟩ rfl (.error "network down")⟩

/--
C6: every `push_code` attempt removes the ephemeral working copy whatever
the outcome, and a failure at any step leaves the canonical remote exactly
as it was and executes nothing beyond the failing step (the failing step is
the last one executed). -/
theorem C6_publish_cleanup_atomic (env : Push.PublishEnv) (branch code : String)
    (remote : Push.Remote) :
    (Push.push_code env branch code remote).tmpRemoved = true ∧
      ∀ (st : Push.PStep) (e : String),
        (Push.push_code env branch code remote).outcome = .error (st, e) →
          (Push.push_code env branch code remote).remote = remote ∧
            (Push.push_code env branch code remote).executed.getLast? = some st := by
  obtain ⟨c, m, w, ck, sg, cm, p⟩ := env
  cases c <;> cases m <;> cases w <;> cases ck <;> cases sg <;> cases cm <;> cases p <;>
    simp [Push.push_code, Push.allSteps]

/-- Witness for C6: a push rejected by the remote after a successful commit
leaves the remote untouched, the temporary clone removed and `push` as the
last executed step. -/
theorem C6_publish_cleanup_atomic_witness :
    (Push.push_code ⟨.ok (), .ok (), .ok (), .ok (), .ok (), .ok (), .error "push rejected"⟩
          "feature/mcp-generated" "class A {}" ⟨[]⟩).tmpRemoved = true ∧
      (Push.push_code ⟨.ok (), .ok (), .ok (), .ok (), .ok (), .ok (), .error "push rejected"⟩
          "feature/mcp-generated" "class A {}" ⟨[]⟩).remote = ⟨[]⟩ ∧
      (Push.push_code ⟨.ok (), .ok (), .ok (), .ok (), .ok (), .ok (), .error "push rejected"⟩
          "feature/mcp-generated" "class A {}" ⟨[]⟩).executed.getLast? = some .push := by
  have h := C6_publish_cleanup_atomic
    ⟨.ok (), .ok (), .ok (), .ok (), .ok (), .ok (), .error "push rejected"⟩
    "feature/mcp-generated" "class A {}" ⟨[]⟩
  have h2 := h.2 .push "push rejected" rfl
  exact ⟨h.1, h2.1, h2.2⟩

theorem failed_empty_eq : ("failed: " ++ "empty response" : String) = "failed: empty response" := by
  decide

/--
C1 counterexample: in the Claude variant (`mcp_fastapi_starter_claude.py`
lines 141-156) there is no empty-response check, so a generator call that
returns the empty string ends the task in the terminal state `completed`
with an empty result — refuting "Completed together with a non-empty
result" for that cited variant. -/
theorem C1_counterexample :
    dget (Claude.run_generation (fun p => p) (fun _ => []) (.ok []) [] true
        (fun _ => .ok "") (fun c t => c ++ t) "add refund endpoint"
        ⟨[("t1", "started")], [], []⟩ "t1").task_status "t1" = some "completed" ∧
      dget (Claude.run_generation (fun p => p) (fun _ => []) (.ok []) [] true
        (fun _ => .ok "") (fun c t => c ++ t) "add refund endpoint"
        ⟨[("t1", "started")], [], []⟩ "t1").task_result "t1" = some "" := by
  decide

/--
C1 as amended: once `run_generation` finishes, the status is exactly one of
`completed` or a string of the form `"failed: " ++ reason` — never a third
terminal state.  In the Ollama starter variant a completed task always
carries a non-empty result; in the Claude variant a completed task carries
the generator response, which may be empty; the push variant stores no
result at all. -/
theorem C1_terminal_states
    (invoke : String → String → Except String String) (files : List CtxFile)
    (task : String) (s : Ollama.St) (id : String)
    (h : String → String) (fs : String → List FsEntry)
    (net : Except String (List String)) (cfiles : List CtxFile) (uc : Bool)
    (cc : String → Except String String) (render : String → String → String)
    (ctask : String) (cs : Claude.St) (cid : String)
    (env : Push.PublishEnv) (branch : String) (remote : Push.Remote)
    (ps : Push.St) (pid : String) :
    ((∃ r, dget (Ollama.run_generation invoke files task s id).task_status id =
          some "completed" ∧
        dget (Ollama.run_generation invoke files task s id).task_result id = some r ∧
        r ≠ "") ∨
      (∃ e, dget (Ollama.run_generation invoke files task s id).task_status id =
        some ("failed: " ++ e))) ∧
    ((∃ r, dget (Claude.run_generation h fs net cfiles uc cc render ctask cs cid).task_status
          cid = some "completed" ∧
        dget (Claude.run_generation h fs net cfiles uc cc render ctask cs cid).task_result
          cid = some r) ∨
      (∃ e, dget (Claude.run_generation h fs net cfiles uc cc render ctask cs cid).task_status
        cid = some ("failed: " ++ e))) ∧
    (dget (Push.run_generation invoke files task env branch remote ps pid).1.task_status
        pid = some "completed" ∨
      (∃ e, dget (Push.run_generation invoke files task env branch remote ps pid).1.task_status
        pid = some ("failed: " ++ e))) := by
  refine ⟨?_, ?_, ?_⟩
  · unfold Ollama.run_generation
    cases hb : gen_body invoke files task with
    | error e => exact Or.inr ⟨e, dget_dinsert_self _ _ _⟩
    | ok r =>
      by_cases hr : r = ""
      · simp only [hr, if_pos rfl]
        exact Or.inr ⟨"empty response", by rw [failed_empty_eq]; exact dget_dinsert_self _ _ _⟩
      · simp only [if_neg hr]
        exact Or.inl ⟨r, dget_dinsert_self _ _ _, dget_dinsert_self _ _ _, hr⟩
  · unfold Claude.run_generation
    cases net with
    | error e => exact Or.inr ⟨e, dget_dinsert_self _ _ _⟩
    | ok paths =>
      cases load_context cfiles with
      | error e => exact Or.inr ⟨e, dget_dinsert_self _ _ _⟩
      | ok aux =>
        cases uc with
        | true =>
          simp only [if_pos]
          cases cc (render ((Claude.extract_all h fs cs.context_cache paths).1 ++ aux)
              ctask) with
          | error e => exact Or.inr ⟨e, dget_dinsert_self _ _ _⟩
          | ok resp => exact Or.inl ⟨resp, dget_dinsert_self _ _ _, dget_dinsert_self _ _ _⟩
        | false =>
          simp only [Bool.false_eq_true, if_neg]
          exact Or.inl ⟨_, dget_dinsert_self _ _ _, dget_dinsert_self _ _ _⟩
  · unfold Push.run_generation
    cases gen_body invoke files task with
    | error e => exact Or.inr ⟨e, dget_dinsert_self _ _ _⟩
    | ok r =>
      by_cases hr : r = ""
      · simp only [hr, if_pos rfl]
        exact Or.inr ⟨"empty response", by rw [failed_empty_eq]; exact dget_dinsert_self _ _ _⟩
      · simp only [if_neg hr]
        cases (Push.push_code env branch r remote).outcome with
        | error pe => exact Or.inr ⟨pe.2, dget_dinsert_self _ _ _⟩
        | ok u => exact Or.inl (dget_dinsert_self _ _ _)

/-- Witness for C1 at a concrete successful generation in the Ollama
starter variant. -/
theorem C1_terminal_states_witness :
    (∃ r, dget (Ollama.run_generation (fun _ _ => .ok "class A {}") [] "t" ⟨[], []⟩
          "a").task_status "a" = some "completed" ∧
        dget (Ollama.run_generation (fun _ _ => .ok "class A {}") [] "t" ⟨[], []⟩
          "a").task_result "a" = some r ∧ r ≠ "") ∨
      (∃ e, dget (Ollama.run_generation (fun _ _ => .ok "class A {}") [] "t" ⟨[], []⟩
        "a").task_status "a" = some ("failed: " ++ e)) :=
  (C1_terminal_states (fun _ _ => .ok "class A {}") [] "t" ⟨[], []⟩ "a"
    (fun q => q) (fun _ => []) (.ok []) [] true (fun _ => .ok "x") (fun c t => c ++ t)
    "t" ⟨[], [], []⟩ "a" ⟨.ok (), .ok (), .ok (), .ok (), .ok (), .ok (), .ok ()⟩ "b"
    ⟨[]⟩ ⟨[]⟩ "a").1

/--
C2: every exception raised at any step inside `run_generation` — context
loading, generator invocation, or (in the push variant) any publish step —
is caught at the orchestrator boundary and recorded as the terminal status
`"failed: " ++ e`; the function is total (it always leaves a status for the
task, never propagating the exception). -/
theorem C2_exceptions_caught
    (invoke : String → String → Except String String) (files : List CtxFile)
    (task : String) (s : Ollama.St) (id : String)
    (env : Push.PublishEnv) (branch : String) (remote : Push.Remote)
    (ps : Push.St) :
    (∀ e, load_context files = .error e → gen_body invoke files task = .error e) ∧
    (∀ e, gen_body invoke files task = .error e →
      dget (Ollama.run_generation invoke files task s id).task_status id =
        some ("failed: " ++ e)) ∧
    (∃ m, dget (Ollama.run_generation invoke files task s id).task_status id = some m) ∧
    (∀ e, gen_body invoke files task = .error e →
      dget (Push.run_generation invoke files task env branch remote ps id).1.task_status id =
        some ("failed: " ++ e)) ∧
    (∀ r st e, gen_body invoke files task = .ok r → r ≠ "" →
      (Push.push_code env branch r remote).outcome = .error (st, e) →
      dget (Push.run_generation invoke files task env branch remote ps id).1.task_status id =
        some ("failed: " ++ e)) ∧
    (∃ m, dget (Push.run_generation invoke files task env branch remote ps id).1.task_status
      id = some m) := by
  refine ⟨?_, ?_, ?_, ?_, ?_, ?_⟩
  · intro e he
    simp [gen_body, he]
  · intro e he
    simp [Ollama.run_generation, he, dget_dinsert_self]
  · unfold Ollama.run_generation
    cases gen_body invoke files task with
    | error e => exact ⟨_, dget_dinsert_self _ _ _⟩
    | ok r =>
      by_cases hr : r = ""
      · simp only [hr, if_pos rfl]
        exact ⟨_, dget_dinsert_self _ _ _⟩
      · simp only [if_neg hr]
        exact ⟨_, dget_dinsert_self _ _ _⟩
  · intro e he
    simp [Push.run_generation, he, dget_dinsert_self]
  · intro r st e hr hne hp
    simp only [Push.run_generation, hr, if_neg hne, hp]
    exact dget_dinsert_self _ _ _
  · unfold Push.run_generation
    cases gen_body invoke files task with
    | error e => exact ⟨_, dget_dinsert_self _ _ _⟩
    | ok r =>
      by_cases hr : r = ""
      · simp only [hr, if_pos rfl]
        exact ⟨_, dget_dinsert_self _ _ _⟩
      · simp only [if_neg hr]
        cases (Push.push_code env branch r remote).outcome with
        | error pe => exact ⟨_, dget_dinsert_self _ _ _⟩
        | ok u => exact ⟨_, dget_dinsert_self _ _ _⟩

/-- Witness for C2: a generator that raises `boom` leaves the task in state
`failed: boom` in both cited variants. -/
theorem C2_exceptions_caught_witness :
    gen_body (fun _ _ => .error "boom") [] "add" = .error "boom" ∧
      dget (Ollama.run_generation (fun _ _ => .error "boom") [] "add" ⟨[], []⟩
        "t9").task_status "t9" = some ("failed: " ++ "boom") ∧
      dget (Push.run_generation (fun _ _ => .error "boom") [] "add"
        ⟨.ok (), .ok (), .ok (), .ok (), .ok (), .ok (), .ok ()⟩ "b" ⟨[]⟩ ⟨[]⟩
        "t9").1.task_status "t9" = some ("failed: " ++ "boom") := by
  have h := C2_exceptions_caught (fun _ _ => .error "boom") [] "add" ⟨[], []⟩ "t9"
    ⟨.ok (), .ok (), .ok (), .ok (), .ok (), .ok (), .ok ()⟩ "b" ⟨[]⟩ ⟨[]⟩
  exact ⟨rfl, h.2.1 "boom" rfl, h.2.2.2.1 "boom" rfl⟩

/--
C4 counterexample: in the Claude variant an empty generator response does
not end the task in a Failed state at all — the status is `completed`,
which does not begin with `failed` — refuting the claim for that cited
variant. -/
theorem C4_counterexample :
    dget (Claude.run_generation (fun p => p) (fun _ => []) (.ok []) [] true
        (fun _ => .ok "") (fun c t => c ++ t) "task"
        ⟨[("t2", "started")], [], []⟩ "t2").task_status "t2" = some "completed" ∧
      strStartsWith "completed" "failed" = false := by
  decide

/--
C4 as amended: in the Ollama starter and push variants, a request whose
generator invocation returns the empty string ends in status
`failed: empty response`, a status is always recorded (no crash), and in
the push variant `push_code` is never entered and the remote is untouched.
(The Claude variant, per the counterexample, records `completed` instead.) -/
theorem C4_empty_generation
    (invoke : String → String → Except String String) (files : List CtxFile)
    (task : String) (s : Ollama.St) (id : String)
    (env : Push.PublishEnv) (branch : String) (remote : Push.Remote)
    (ps : Push.St)
    (hempty : gen_body invoke files task = .ok "") :
    dget (Ollama.run_generation invoke files task s id).task_status id =
        some "failed: empty response" ∧
      dget (Push.run_generation invoke files task env branch remote ps id).1.task_status id =
        some "failed: empty response" ∧
      (Push.run_generation invoke files task env branch remote ps id).2.2 = false ∧
      (Push.run_generation invoke files task env branch remote ps id).2.1 = remote := by
  refine ⟨?_, ?_, ?_, ?_⟩ <;>
    simp [Ollama.run_generation, Push.run_generation, hempty, dget_dinsert_self]

/-- Witness for C4 at a concrete empty-returning generator. -/
theorem C4_empty_generation_witness :
    gen_body (fun _ _ => .ok "") [] "add" = .ok "" ∧
      dget (Ollama.run_generation (fun _ _ => .ok "") [] "add" ⟨[], []⟩
        "t3").task_status "t3" = some "failed: empty response" ∧
      (Push.run_generation (fun _ _ => .ok "") [] "add"
        ⟨.ok (), .ok (), .ok (), .ok (), .ok (), .ok (), .ok ()⟩ "b" ⟨[]⟩ ⟨[]⟩ "t3").2.2 =
        false := by
  have h := C4_empty_generation (fun _ _ => .ok "") [] "add" ⟨[], []⟩ "t3"
    ⟨.ok (), .ok (), .ok (), .ok (), .ok (), .ok (), .ok ()⟩ "b" ⟨[]⟩ ⟨[]⟩ rfl
  exact ⟨rfl, h.1, h.2.2.1⟩

/--
C5 counterexample: the per-file header of `extract_context_from_repo` is
built from the bare file name (`"\n# {file}:\n"`), not the file's origin
path — for a file under `repo/sub` neither the full path nor even the
directory appears anywhere in the aggregated output. -/
theorem C5_counterexample :
    Claude.extract_core [⟨"repo/sub", "a.java", true, "XY"⟩] = "\n# a.java:\nXY" ∧
      occursIn ("repo/sub/a.java").data
        (Claude.extract_core [⟨"repo/sub", "a.java", true, "XY"⟩]).data = false ∧
      occursIn ("repo/sub").data
        (Claude.extract_core [⟨"repo/sub", "a.java", true, "XY"⟩]).data = false ∧
      occursIn ("a.java").data
        (Claude.extract_core [⟨"repo/sub", "a.java", true, "XY"⟩]).data = true := by
  decide

/--
C5 as amended: context extraction selects exactly the files whose name ends
in an allowed extension (`.java`, `.md`, `.yml`), contributes at most 3000
characters per selected file (a 5000-`X` file contributes exactly 3000
`X`s, a 10-`Y` file all 10 `Y`s), prefixes each contribution with a header
noting the file's base name (not its origin path), and excludes files with
unsupported extensions entirely, wherever they sit in the walk. -/
theorem C5_context_aggregation :
    Claude.extract_core [⟨"r", "a.java", true, String.mk (List.replicate 5000 'X')⟩,
        ⟨"r", "b.md", true, String.mk (List.replicate 10 'Y')⟩,
        ⟨"r", "c.txt", true, String.mk (List.replicate 30 'Z')⟩] =
      "" ++ "\n# " ++ "a.java" ++ ":\n" ++ String.mk (List.replicate 3000 'X') ++
        "\n# " ++ "b.md" ++ ":\n" ++ String.mk (List.replicate 10 'Y') ∧
    countChar (strTake (String.mk (List.replicate 5000 'X')) 3000) 'X' = 3000 ∧
    strTake (String.mk (List.replicate 10 'Y')) 3000 = String.mk (List.replicate 10 'Y') ∧
    (∀ (e : FsEntry) (pre post : List FsEntry),
      endsWithAny e.name Claude.file_types = false →
        Claude.extract_core (pre ++ e :: post) = Claude.extract_core (pre ++ post)) ∧
    (∀ (e : FsEntry) (pre : List FsEntry),
      endsWithAny e.name Claude.file_types = true → e.readable = true →
        Claude.extract_core (pre ++ [e]) =
          Claude.extract_core pre ++ "\n# " ++ e.name ++ ":\n" ++ strTake e.content 3000) := by
  have hx : strTake (String.mk (List.replicate 5000 'X')) 3000 =
      String.mk (List.replicate 3000 'X') := by
    show String.mk ((List.replicate 5000 'X').take 3000) = _
    rw [List.take_replicate]
    norm_num
  have hy : strTake (String.mk (List.replicate 10 'Y')) 3000 =
      String.mk (List.replicate 10 'Y') := by
    show String.mk ((List.replicate 10 'Y').take 3000) = _
    rw [List.take_replicate]
    norm_num
  refine ⟨?_, ?_, hy, ?_, ?_⟩
  · have ha : endsWithAny "a.java" Claude.file_types = true := by decide
    have hb : endsWithAny "b.md" Claude.file_types = true := by decide
    have hc : endsWithAny "c.txt" Claude.file_types = false := by decide
    simp only [Claude.extract_core, List.foldl_cons, List.foldl_nil, ha, hb, hc, if_true,
      if_false, Bool.false_eq_true, hx, hy]
  · rw [hx]
    show (List.replicate 3000 'X').count 'X' = 3000
    rw [List.count_replicate]
    norm_num
  · intro e pre post h
    unfold Claude.extract_core
    rw [List.foldl_append, List.foldl_append, List.foldl_cons, h]
    simp only [Bool.false_eq_true, if_false]
  · intro e pre hsel hr
    unfold Claude.extract_core
    rw [List.foldl_append, List.foldl_cons, hsel, hr]
    simp only [if_true, List.foldl_nil]

/-- Witness for C5: an unsupported `.txt` file in the middle of the walk is
excluded entirely, and a supported readable file appended at the end
contributes a header with its base name plus its capped content. -/
theorem C5_context_aggregation_witness :
    endsWithAny "c.txt" Claude.file_types = false ∧
      Claude.extract_core ([⟨"r", "a.java", true, "A"⟩] ++ ⟨"r", "c.txt", true, "Z"⟩ ::
          ([] : List FsEntry)) =
        Claude.extract_core ([⟨"r", "a.java", true, "A"⟩] ++ ([] : List FsEntry)) ∧
      Claude.extract_core ([] ++ [⟨"r", "b.md", true, "B"⟩]) =
        Claude.extract_core [] ++ "\n# " ++ "b.md" ++ ":\n" ++ strTake "B" 3000 := by
  have h := C5_context_aggregation
  exact ⟨by decide,
    h.2.2.2.1 ⟨"r", "c.txt", true, "Z"⟩ [⟨"r", "a.java", true, "A"⟩] [] (by decide),
    h.2.2.2.2 ⟨"r", "b.md", true, "B"⟩ [] (by decide) rfl⟩

/--
C7: on a cache miss, `extract_context_from_repo` computes the context via
the filesystem walk and stores it under the hashed key; a second call for
the same path then returns exactly the stored text — even if the
filesystem has changed in between, showing no re-extraction happens — and
leaves the cache unchanged; entries under any other hash key are
untouched, so distinct keys never collide. -/
theorem C7_cache_idempotent (h : String → String) (fs fs2 : String → List FsEntry)
    (cache : List (String × String)) (p : String)
    (hmiss : dget cache (h p) = none) :
    (Claude.extract_context_from_repo h fs cache p).1 = Claude.extract_core (fs p) ∧
      dget (Claude.extract_context_from_repo h fs cache p).2 (h p) =
        some (Claude.extract_core (fs p)) ∧
      (Claude.extract_context_from_repo h fs2
          (Claude.extract_context_from_repo h fs cache p).2 p).1 =
        (Claude.extract_context_from_repo h fs cache p).1 ∧
      (Claude.extract_context_from_repo h fs2
          (Claude.extract_context_from_repo h fs cache p).2 p).2 =
        (Claude.extract_context_from_repo h fs cache p).2 ∧
      (∀ k, k ≠ h p →
        dget (Claude.extract_context_from_repo h fs cache p).2 k = dget cache k) := by
  have h1 : Claude.extract_context_from_repo h fs cache p =
      (Claude.extract_core (fs p), dinsert cache (h p) (Claude.extract_core (fs p))) := by
    simp [Claude.extract_context_from_repo, hmiss]
  refine ⟨by rw [h1], by rw [h1]; exact dget_dinsert_self _ _ _, ?_, ?_, ?_⟩
  · rw [h1]
    simp [Claude.extract_context_from_repo, dget_dinsert_self]
  · rw [h1]
    simp [Claude.extract_context_from_repo, dget_dinsert_self]
  · intro k hk
    rw [h1]
    exact dget_dinsert_ne _ _ _ _ hk

/-- Witness for C7: a first extraction of `repo1` against an empty
directory stores `""`; a second call against a now non-empty directory
still returns the cached `""` rather than re-extracting. -/
theorem C7_cache_idempotent_witness :
    dget [] ((fun q => q) "repo1") = none ∧
      (Claude.extract_context_from_repo (fun q => q)
          (fun _ => [⟨"r", "a.java", true, "ZZ"⟩])
          (Claude.extract_context_from_repo (fun q => q) (fun _ => []) [] "repo1").2
          "repo1").1 = "" := by
  have h := C7_cache_idempotent (fun q => q) (fun _ => [])
    (fun _ => [⟨"r", "a.java", true, "ZZ"⟩]) [] "repo1" rfl
  exact ⟨rfl, h.2.2.1.trans h.1⟩

theorem fetch_pages_stops_on_bad (good : List Claude.Page) (bad : Claude.Page)
    (rest : List Claude.Page)
    (hgood : ∀ p ∈ good, p.status_code = 200 ∧ p.next.isSome)
    (hbad : bad.status_code ≠ 200) :
    Claude.fetch_pages (good ++ bad :: rest) =
      ((good.map Claude.Page.values).flatten, []) := by
  induction good with
  | nil => simp [Claude.fetch_pages, hbad]
  | cons p ps ih =>
    have hp := hgood p (List.mem_cons_self p ps)
    obtain ⟨n, hn⟩ : ∃ n, p.next = some n := Option.isSome_iff_exists.mp hp.2
    have ihr := ih fun q hq => hgood q (List.mem_cons_of_mem p hq)
    simp [Claude.fetch_pages, hp.1, hn, ihr]

theorem fetch_pages_follows_next (good : List Claude.Page) (lastPage : Claude.Page)
    (tail : List Claude.Page)
    (hgood : ∀ p ∈ good, p.status_code = 200 ∧ p.next.isSome)
    (hl : lastPage.status_code = 200) (hn : lastPage.next = none) :
    Claude.fetch_pages (good ++ lastPage :: tail) =
      (((good ++ [lastPage]).map Claude.Page.values).flatten, []) := by
  induction good with
  | nil => simp [Claude.fetch_pages, hl, hn]
  | cons p ps ih =>
    have hp := hgood p (List.mem_cons_self p ps)
    obtain ⟨n, hpn⟩ : ∃ n, p.next = some n := Option.isSome_iff_exists.mp hp.2
    have ihr := ih fun q hq => hgood q (List.mem_cons_of_mem p hq)
    simp [Claude.fetch_pages, hp.1, hpn, ihr]

/--
C8 counterexample: a non-200 page in the middle of the chain makes
`fetch_all_bitbucket_repos` stop early with only the first page's
repositories, and the early termination is completely silent — the loop
contains no logging or reporting statement, so the emitted log is empty —
refuting "logged or reported rather than silently swallowed". -/
theorem C8_counterexample :
    Claude.fetch_pages [⟨200, [⟨"PK", "r1", "u1"⟩], some "page2"⟩,
        ⟨500, [⟨"PK", "r2", "u2"⟩], some "page3"⟩,
        ⟨200, [⟨"PK", "r3", "u3"⟩], none⟩] =
      ([⟨"PK", "r1", "u1"⟩], []) ∧
      (Claude.fetch_pages [⟨200, [⟨"PK", "r1", "u1"⟩], some "page2"⟩,
        ⟨500, [⟨"PK", "r2", "u2"⟩], some "page3"⟩,
        ⟨200, [⟨"PK", "r3", "u3"⟩], none⟩]).2 = [] := by
  constructor <;> rfl

/--
C8 as amended: repository discovery follows the `next` cursor until it is
absent (all-200 chain: every page's values are returned), and on any
non-200 page it stops paginating early and returns the repositories
accumulated so far rather than failing — but silently: the loop logs and
reports nothing (its log output is always empty). -/
theorem C8_pagination_behavior :
    (∀ (good : List Claude.Page) (bad : Claude.Page) (rest : List Claude.Page),
      (∀ p ∈ good, p.status_code = 200 ∧ p.next.isSome) → bad.status_code ≠ 200 →
        Claude.fetch_pages (good ++ bad :: rest) =
          ((good.map Claude.Page.values).flatten, [])) ∧
    (∀ (good : List Claude.Page) (lastPage : Claude.Page) (tail : List Claude.Page),
      (∀ p ∈ good, p.status_code = 200 ∧ p.next.isSome) → lastPage.status_code = 200 →
      lastPage.next = none →
        Claude.fetch_pages (good ++ lastPage :: tail) =
          (((good ++ [lastPage]).map Claude.Page.values).flatten, [])) :=
  ⟨fetch_pages_stops_on_bad, fetch_pages_follows_next⟩

/-- Witness for C8: one good page followed by a 500 yields exactly the good
page's repositories; a good page followed by a cursor-less 200 page yields
both pages' repositories. -/
theorem C8_pagination_behavior_witness :
    Claude.fetch_pages [⟨200, [⟨"PK", "r1", "u1"⟩], some "p2"⟩, ⟨500, [⟨"PK", "r2", "u2"⟩],
        some "p3"⟩] = ([⟨"PK", "r1", "u1"⟩], []) ∧
      Claude.fetch_pages [⟨200, [⟨"PK", "r1", "u1"⟩], some "p2"⟩, ⟨200, [⟨"PK", "r2", "u2"⟩],
        none⟩] = ([⟨"PK", "r1", "u1"⟩, ⟨"PK", "r2", "u2"⟩], []) := by
  have h1 := C8_pagination_behavior.1 [⟨200, [⟨"PK", "r1", "u1"⟩], some "p2"⟩]
    ⟨500, [⟨"PK", "r2", "u2"⟩], some "p3"⟩ []
    (by intro p hp; simp at hp; subst hp; exact ⟨rfl, rfl⟩) (by decide)
  have h2 := C8_pagination_behavior.2 [⟨200, [⟨"PK", "r1", "u1"⟩], some "p2"⟩]
    ⟨200, [⟨"PK", "r2", "u2"⟩], none⟩ []
    (by intro p hp; simp at hp; subst hp; exact ⟨rfl, rfl⟩) rfl rfl
  constructor
  · rw [show ([⟨200, [⟨"PK", "r1", "u1"⟩], some "p2"⟩, ⟨500, [⟨"PK", "r2", "u2"⟩], some "p3"⟩] :
        List Claude.Page) = [⟨200, [⟨"PK", "r1", "u1"⟩], some "p2"⟩] ++
          ⟨500, [⟨"PK", "r2", "u2"⟩], some "p3"⟩ :: [] from rfl]
    rw [h1]
    rfl
  · rw [show ([⟨200, [⟨"PK", "r1", "u1"⟩], some "p2"⟩, ⟨200, [⟨"PK", "r2", "u2"⟩], none⟩] :
        List Claude.Page) = [⟨200, [⟨"PK", "r1", "u1"⟩], some "p2"⟩] ++
          ⟨200, [⟨"PK", "r2", "u2"⟩], none⟩ :: [] from rfl]
    rw [h2]
    rfl

theorem inv_submit (s : Ollama.St) (id : String)
    (h2 : dget s.task_result id = none)
    (hinv : Ollama.ResultImpliesCompleted s) :
    Ollama.ResultImpliesCompleted (Ollama.step s (.submit id)) := by
  intro id' r hr
  have hr' : dget s.task_result id' = some r := hr
  have hc := hinv id' r hr'
  by_cases hid : id' = id
  · subst hid
    rw [h2] at hr'
    cases hr'
  · show dget (dinsert s.task_status id "started") id' = some "completed"
    rw [dget_dinsert_ne _ _ _ _ hid]
    exact hc

theorem inv_run (s : Ollama.St) (id : String)
    (invoke : String → String → Except String String) (files : List CtxFile) (task : String)
    (h : dget s.task_status id = some "started")
    (hinv : Ollama.ResultImpliesCompleted s) :
    Ollama.ResultImpliesCompleted (Ollama.run_generation invoke files task s id) := by
  intro id' r hr
  unfold Ollama.run_generation at hr ⊢
  cases hb : gen_body invoke files task with
  | error e =>
    simp only [hb] at hr ⊢
    have hr' : dget s.task_result id' = some r := hr
    have hc := hinv id' r hr'
    show dget (dinsert s.task_status id ("failed: " ++ e)) id' = some "completed"
    by_cases hid : id' = id
    · subst hid
      rw [h] at hc
      exact absurd (Option.some.inj hc) (by decide)
    · rw [dget_dinsert_ne _ _ _ _ hid]
      exact hc
  | ok resp =>
    simp only [hb] at hr ⊢
    by_cases hresp : resp = ""
    · rw [if_pos hresp] at hr ⊢
      have hr' : dget s.task_result id' = some r := hr
      have hc := hinv id' r hr'
      show dget (dinsert s.task_status id "failed: empty response") id' = some "completed"
      by_cases hid : id' = id
      · subst hid
        rw [h] at hc
        exact absurd (Option.some.inj hc) (by decide)
      · rw [dget_dinsert_ne _ _ _ _ hid]
        exact hc
    · rw [if_neg hresp] at hr ⊢
      have hr' : dget (dinsert s.task_result id resp) id' = some r := hr
      show dget (dinsert s.task_status id "completed") id' = some "completed"
      by_cases hid : id' = id
      · subst hid
        exact dget_dinsert_self _ _ _
      · rw [dget_dinsert_ne _ _ _ _ hid] at hr'
        rw [dget_dinsert_ne _ _ _ _ hid]
        exact hinv id' r hr'

theorem wf_trace_inv (t : List Ollama.Event) : ∀ s : Ollama.St,
    Ollama.ResultImpliesCompleted s → Ollama.wf s t = true →
    Ollama.ResultImpliesCompleted (Ollama.runTrace s t) := by
  induction t with
  | nil => intro s hs _; exact hs
  | cons e rest ih =>
    intro s hs hwf
    cases e with
    | submit id =>
      simp only [Ollama.wf, Bool.and_eq_true, Option.isNone_iff_eq_none] at hwf
      exact ih _ (inv_submit s id hwf.1.2 hs) hwf.2
    | run id invoke files task =>
      simp only [Ollama.wf, Bool.and_eq_true, beq_iff_eq] at hwf
      exact ih _ (inv_run s id invoke files task hwf.1 hs) hwf.2
    | query id =>
      simp only [Ollama.wf] at hwf
      exact ih _ hs hwf

/--
C10: in the Ollama starter variant, along every trace the application can
produce (fresh uuids at submit, one background run per task), the result
registry holds an entry only for tasks whose status is `completed`: a
status query whose status component is anything else — `started`, a
`failed: ...` string, or `unknown` — returns result `None`. -/
theorem C10_result_only_when_completed (t : List Ollama.Event) (id : String)
    (hwf : Ollama.wf Ollama.emptySt t = true)
    (hnc : (Ollama.get_status (Ollama.runTrace Ollama.emptySt t) id).2.1 ≠ "completed") :
    (Ollama.get_status (Ollama.runTrace Ollama.emptySt t) id).2.2 = none := by
  have hinv := wf_trace_inv t Ollama.emptySt
    (fun id' r h => by simp [Ollama.emptySt, dget, List.lookup] at h) hwf
  show dget (Ollama.runTrace Ollama.emptySt t).task_result id = none
  cases hres : dget (Ollama.runTrace Ollama.emptySt t).task_result id with
  | none => rfl
  | some r =>
    have hc := hinv id r hres
    refine absurd ?_ hnc
    show (dget (Ollama.runTrace Ollama.emptySt t).task_status id).getD "unknown" = "completed"
    rw [hc]
    rfl

/-- Witness for C10 on a concrete well-formed trace: task `a` fails, so its
status is not `completed` and its result is `None`. -/
theorem C10_result_only_when_completed_witness :
    Ollama.wf Ollama.emptySt [.submit "a", .run "a" (fun _ _ => .error "x") [] "t",
        .submit "b", .query "a"] = true ∧
      (Ollama.get_status (Ollama.runTrace Ollama.emptySt [.submit "a",
          .run "a" (fun _ _ => .error "x") [] "t", .submit "b", .query "a"]) "a").2.2 =
        none := by
  refine ⟨by decide, C10_result_only_when_completed [.submit "a",
    .run "a" (fun _ _ => .error "x") [] "t", .submit "b", .query "a"] "a"
    (by decide) (by decide)⟩

end MCP
